import Mathlib

/-!
Shallow embedding of `src/text-to-svg-path.ts` (and its types from
`types.ts`): a TypeScript utility that converts text into SVG path
markup using a font fetched from a URL.

Numbers are modelled as rationals (`Rat`); JavaScript string templating
is modelled by explicit string concatenation, with `numStr` standing in
for JavaScript's number-to-string conversion.  The external
collaborators (network fetch and opentype.js font parsing) are modelled
as an explicit environment `FontEnv`; the font object's `getPath`
capability may fail (any JavaScript call may throw), which is what the
source's try/catch blocks react to.  Fetch/parse invocations are
instrumented as a trace of `FontEv` events so that the deduplication
behaviour of the batcher is observable.
-/

namespace TextToSvgPath

/-- Model of `OutputFormat` from `types.ts`. -/
inductive OutputFormat where
  | svg
  | pathData
  | pathElement
  | svgWithBackground
deriving DecidableEq, Repr

/-- Model of `TextToSvgPathOptions` from `types.ts`.  Optional fields are `Option`;
`none` models an absent (or `undefined`) property. -/
structure TextToSvgPathOptions where
  text : String
  fontUrl : String
  fontSize : Option Rat := none
  fill : Option String := none
  stroke : Option String := none
  strokeWidth : Option String := none
  kerning : Option Bool := none
  x : Option Rat := none
  y : Option Rat := none
  width : Option Rat := none
  height : Option Rat := none
  background : Option String := none
  backgroundWidth : Option Rat := none
  backgroundHeight : Option Rat := none
  backgroundX : Option Rat := none
  backgroundY : Option Rat := none
  outputFormats : Option (List OutputFormat) := none
deriving DecidableEq, Repr

/-- Model of `TextToSvgPathResult` from `types.ts`. -/
structure TextToSvgPathResult where
  svg : String
  svgWithBackground : Option String := none
  pathData : String
  pathElement : String
deriving DecidableEq, Repr

/-- The geometry object returned by the font engine's `getPath`
(opentype.js `Path`): it can serialize itself at a given decimal
precision and report its bounding box. -/
structure BBox where
  x1 : Rat
  y1 : Rat
  x2 : Rat
  y2 : Rat
deriving DecidableEq, Repr

structure PathGeom where
  toPathData : Nat → String
  bbox : BBox

/-- The parsed font object (opentype.js `Font`): `getPath` may throw,
modelled by `Except` carrying the error message. -/
structure Font where
  getPath : String → Rat → Rat → Rat → Bool → Except String PathGeom

/-- A `node-fetch` response, as far as the source inspects it. -/
structure FetchResponse where
  ok : Bool
  status : Nat
  statusText : String
  body : String
deriving Repr

/-- The external environment: the network fetch capability (an
`Except.error` is a rejected promise / network failure) and the
opentype.js `parse` capability. -/
structure FontEnv where
  fetch : String → Except String FetchResponse
  parse : String → Except String Font

/-- Instrumentation events: one `fetch` event per `fetch(fontUrl)` call,
one `parse` event per `opentype.parse` call on bytes retrieved for the
given URL. -/
inductive FontEv where
  | fetch (url : String)
  | parse (url : String)
deriving DecidableEq, Repr

/-- Number of occurrences of an event in a trace. -/
def countEv (tr : List FontEv) (e : FontEv) : Nat :=
  (tr.filter (fun x => x = e)).length

/-- Stand-in for JavaScript number-to-string conversion inside template
literals. -/
def numStr (q : Rat) : String := toString q

/-- JavaScript truthiness of an optional number (`options.width || fallback`):
`undefined` and `0` are falsy. -/
def jsOrNum (v : Option Rat) (fallback : Rat) : Rat :=
  match v with
  | none => fallback
  | some w => if w = 0 then fallback else w

/-- JavaScript truthiness of an optional string (`background` in
`shouldGenerate('svgWithBackground') && background`): `undefined` and
the empty string are falsy. -/
def jsTruthyStr (v : Option String) : Bool :=
  match v with
  | none => false
  | some s => s ≠ ""

/-- JavaScript `Math.ceil`, returned as a rational (`Rat.ceil` is the smallest
integer greater than or equal to its argument). -/
def mathCeil (q : Rat) : Rat := ((q.ceil : Int) : Rat)

/-- Destructuring defaults of `processTextWithFont` / `processSingleText`:
`const { fontSize = 72, fill = '#000000', stroke = 'none',
strokeWidth = '0', kerning = true, x = 0, y = fontSize, ... } = options`. -/
def effFontSize (o : TextToSvgPathOptions) : Rat := o.fontSize.getD 72

def effFill (o : TextToSvgPathOptions) : String := o.fill.getD "#000000"

def effStroke (o : TextToSvgPathOptions) : String := o.stroke.getD "none"

def effStrokeWidth (o : TextToSvgPathOptions) : String := o.strokeWidth.getD "0"

def effKerning (o : TextToSvgPathOptions) : Bool := o.kerning.getD true

def effX (o : TextToSvgPathOptions) : Rat := o.x.getD 0

def effY (o : TextToSvgPathOptions) : Rat := o.y.getD (effFontSize o)

def effBackgroundWidth (o : TextToSvgPathOptions) : Rat := o.backgroundWidth.getD 400

def effBackgroundHeight (o : TextToSvgPathOptions) : Rat := o.backgroundHeight.getD 200

def effBackgroundX (o : TextToSvgPathOptions) : Rat := o.backgroundX.getD 50

def effBackgroundY (o : TextToSvgPathOptions) : Rat := o.backgroundY.getD 120

/-- The `shouldGenerate` closure of `processTextWithFont`:
`if (!outputFormats || outputFormats.length === 0) return true;
return outputFormats.includes(format);`. -/
def shouldGenerate (outputFormats : Option (List OutputFormat)) (format : OutputFormat) : Bool :=
  match outputFormats with
  | none => true
  | some l => if l.isEmpty then true else l.contains format

/-- The `<path .../>` template literal (lines 173–178 of the source). -/
def mkPathElement (pathData fill stroke strokeWidth : String) : String :=
  "<path \n  d=\"" ++ pathData ++ "\" \n  fill=\"" ++ fill ++
  "\"\n  stroke=\"" ++ stroke ++ "\"\n  stroke-width=\"" ++ strokeWidth ++ "\"\n/>"

/-- The standalone `<svg>` template literal (lines 192–204). -/
def mkSvgString (width height viewBoxX viewBoxY : Rat) (inner : String) : String :=
  "<svg \nxmlns=\"http://www.w3.org/2000/svg\" \nwidth=\"" ++ numStr width ++
  "\" \nheight=\"" ++ numStr height ++ "\" \nviewBox=\"" ++ numStr viewBoxX ++ " " ++
  numStr viewBoxY ++ " " ++ numStr width ++ " " ++ numStr height ++ "\"\n>\n" ++
  inner ++ "\n</svg>"

/-- The background `<svg>` template literal (lines 209–223). -/
def mkSvgWithBackground (bgWidth bgHeight : Rat) (background : String)
    (pathData : String) (bgX bgY : Rat) (fill stroke strokeWidth : String) : String :=
  "<svg \nxmlns=\"http://www.w3.org/2000/svg\" \nwidth=\"" ++ numStr bgWidth ++
  "\" \nheight=\"" ++ numStr bgHeight ++ "\" \nviewBox=\"0 0 " ++ numStr bgWidth ++ " " ++
  numStr bgHeight ++ "\"\n>\n<rect x=\"0\" y=\"0\" width=\"" ++ numStr bgWidth ++
  "\" height=\"" ++ numStr bgHeight ++ "\" fill=\"" ++ background ++
  "\" />\n<path \n  d=\"" ++ pathData ++ "\" \n  transform=\"translate(" ++ numStr bgX ++
  ", " ++ numStr bgY ++ ")\" \n  fill=\"" ++ fill ++ "\"\n  stroke=\"" ++ stroke ++
  "\"\n  stroke-width=\"" ++ strokeWidth ++ "\"\n/>\n</svg>"

/-- The padding of line 187: `const padding = fontSize * 0.2`. -/
def svgPadding (options : TextToSvgPathOptions) : Rat :=
  effFontSize options * (0.2 : Rat)

/-- The effective width of line 188:
`const width = options.width || Math.ceil(bbox.x2 - bbox.x1 + padding * 2)`. -/
def svgWidth (options : TextToSvgPathOptions) (path : PathGeom) : Rat :=
  jsOrNum options.width
    (mathCeil (path.bbox.x2 - path.bbox.x1 + svgPadding options * 2))

/-- The effective height of line 189. -/
def svgHeight (options : TextToSvgPathOptions) (path : PathGeom) : Rat :=
  jsOrNum options.height
    (mathCeil (path.bbox.y2 - path.bbox.y1 + svgPadding options * 2))

/-- The result record built by `processTextWithFont` (lines 160–226)
once `font.getPath` has returned a geometry. -/
def buildResult (options : TextToSvgPathOptions) (path : PathGeom) : TextToSvgPathResult :=
  let pathData := path.toPathData 2
  let pathElement :=
    if shouldGenerate options.outputFormats OutputFormat.pathElement then
      mkPathElement pathData (effFill options) (effStroke options) (effStrokeWidth options)
    else ""
  let svg :=
    if shouldGenerate options.outputFormats OutputFormat.svg then
      mkSvgString (svgWidth options path) (svgHeight options path)
        (path.bbox.x1 - svgPadding options) (path.bbox.y1 - svgPadding options)
        (if pathElement = "" then
          mkPathElement pathData (effFill options) (effStroke options) (effStrokeWidth options)
        else pathElement)
    else ""
  let svgWithBackground :=
    if shouldGenerate options.outputFormats OutputFormat.svgWithBackground
        && jsTruthyStr options.background then
      some (mkSvgWithBackground (effBackgroundWidth options) (effBackgroundHeight options)
        (options.background.getD "") pathData
        (effBackgroundX options) (effBackgroundY options)
        (effFill options) (effStroke options) (effStrokeWidth options))
    else none
  { svg := svg, svgWithBackground := svgWithBackground,
    pathData := pathData, pathElement := pathElement }

/-- Model of `processTextWithFont` (lines 134–227): pure generation of one result
from one request and a parsed font.  The only fallible step is the font
engine's `getPath` call; an error propagates like a thrown exception. -/
def processTextWithFont (options : TextToSvgPathOptions) (font : Font) :
    Except String TextToSvgPathResult :=
  match font.getPath options.text (effX options) (effY options)
      (effFontSize options) (effKerning options) with
  | Except.error e => Except.error e
  | Except.ok path => Except.ok (buildResult options path)

/-- The error message thrown on a non-success response (lines 53 and 114):
`Failed to fetch font: ${fontResponse.statusText} (${fontResponse.status})`. -/
def fetchFailMsg (resp : FetchResponse) : String :=
  "Failed to fetch font: " ++ resp.statusText ++ " (" ++ toString resp.status ++ ")"

/-- Fetch and parse a font (lines 49–60 and 110–121), with the
instrumentation trace of external invocations. -/
def resolveFontT (env : FontEnv) (fontUrl : String) : Except String Font × List FontEv :=
  match env.fetch fontUrl with
  | Except.error e => (Except.error e, [FontEv.fetch fontUrl])
  | Except.ok resp =>
    if resp.ok then
      (env.parse resp.body, [FontEv.fetch fontUrl, FontEv.parse fontUrl])
    else
      (Except.error (fetchFailMsg resp), [FontEv.fetch fontUrl])

/-- The resolved font (or error), ignoring the trace. -/
def resolveFont (env : FontEnv) (fontUrl : String) : Except String Font :=
  (resolveFontT env fontUrl).1

/-- Whether `fetch(url)` resolves with an `ok` response, i.e. bytes are
delivered to the parser. -/
def fetchDelivers (env : FontEnv) (url : String) : Bool :=
  match env.fetch url with
  | Except.ok resp => resp.ok
  | Except.error _ => false

/-- Model of `processSingleText` (lines 87–129): the whole fetch/parse/generate
sequence sits in one try block whose catch rethrows
`Error generating SVG path: ${error.message || 'Unknown error'}`. -/
def wrapSingleError (msg : String) : String :=
  "Error generating SVG path: " ++ (if msg = "" then "Unknown error" else msg)

def processSingleText (env : FontEnv) (options : TextToSvgPathOptions) :
    Except String TextToSvgPathResult :=
  match resolveFont env options.fontUrl with
  | Except.error e => Except.error (wrapSingleError e)
  | Except.ok font =>
    match processTextWithFont options font with
    | Except.error e => Except.error (wrapSingleError e)
    | Except.ok r => Except.ok r

/-! ## The batcher (multi-text case, lines 27–81)

A JavaScript object is modelled as an association list of its own
enumerable keys, in insertion order; object keys are unique. -/

/-- An entry of the `fontGroups` record: a font URL together with the
labelled requests pushed for it (the source stores the labels and looks
the request up again in `multiOptions`; since object keys are unique the
request can be carried along directly). -/
abbrev FontGroup := String × List (String × TextToSvgPathOptions)

/-- The push `fontGroups[url].push(entry)`: append to the (unique) group with the
given key. -/
def updateGroup (url : String) (e : String × TextToSvgPathOptions) :
    List FontGroup → List FontGroup
  | [] => []
  | g :: gs =>
    if g.1 = url then (g.1, g.2 ++ [e]) :: gs
    else g :: updateGroup url e gs

/-- One grouping step: `if (!fontGroups[opts.fontUrl]) fontGroups[opts.fontUrl] = [];
fontGroups[opts.fontUrl].push(key);` for one loop iteration. -/
def groupInsert (gs : List FontGroup) (e : String × TextToSvgPathOptions) :
    List FontGroup :=
  if gs.any (fun g => g.1 = e.2.fontUrl) then updateGroup e.2.fontUrl e gs
  else gs ++ [(e.2.fontUrl, [e])]

/-- The grouping loop (lines 37–43): partition the labelled requests by
`fontUrl`, in first-occurrence order. -/
def fontGroups (entries : List (String × TextToSvgPathOptions)) : List FontGroup :=
  entries.foldl groupInsert []

/-- The degraded result stored for every label of a failing font group
(lines 71–77). -/
def errorResult (msg : String) : TextToSvgPathResult :=
  { svg := "<svg><text>Error: " ++ msg ++ "</text></svg>",
    svgWithBackground := none, pathData := "", pathElement := "" }

/-- The inner generation loop of a font group (lines 63–68): results are
produced label by label; a thrown error aborts the loop. -/
def generateGroup (font : Font) :
    List (String × TextToSvgPathOptions) →
    Except String (List (String × TextToSvgPathResult))
  | [] => Except.ok []
  | (l, o) :: rest =>
    match processTextWithFont o font with
    | Except.error e => Except.error e
    | Except.ok r =>
      match generateGroup font rest with
      | Except.error e => Except.error e
      | Except.ok rs => Except.ok ((l, r) :: rs)

/-- One iteration of the font-group loop (lines 46–79): resolve the font
once, then generate every label's result; the catch block assigns
`errorResult` to every label of the group on any failure, overwriting
results already stored for it, so the group's final contribution to the
`result` object is as below. -/
def processGroup (env : FontEnv) (url : String)
    (g : List (String × TextToSvgPathOptions)) :
    List (String × TextToSvgPathResult) :=
  match resolveFont env url with
  | Except.error e => g.map (fun p => (p.1, errorResult e))
  | Except.ok font =>
    match generateGroup font g with
    | Except.error e => g.map (fun p => (p.1, errorResult e))
    | Except.ok rs => rs

/-- Concatenation of per-group contributions (labels across groups are
disjoint, so the final `result` object is their concatenation). -/
def concatMap {α β : Type} (f : α → List β) : List α → List β
  | [] => []
  | a :: l => f a ++ concatMap f l

/-- The batch pipeline: group, then process each group in order. -/
def processMulti (env : FontEnv) (entries : List (String × TextToSvgPathOptions)) :
    List (String × TextToSvgPathResult) :=
  concatMap (fun g => processGroup env g.1 g.2) (fontGroups entries)

/-- The batch pipeline's trace of external invocations: each iteration
of the font-group loop invokes fetch (and, when bytes arrive, parse)
exactly through `resolveFontT`. -/
def multiTrace (env : FontEnv) (entries : List (String × TextToSvgPathOptions)) :
    List FontEv :=
  concatMap (fun g => (resolveFontT env g.1).2) (fontGroups entries)

/-- Property read on the output object: `result[label]`. -/
def jsGet {α : Type} (m : List (String × α)) (k : String) : Option α :=
  (m.find? (fun p => p.1 == k)).map Prod.snd

/-! ## The overloaded entry point (lines 16–82) -/

/-- The dynamic argument of `textToSvgPath`: either a single options
object or a label → request mapping (an object whose own keys are the
labels). -/
inductive TtsInput where
  | single (o : TextToSvgPathOptions)
  | multi (entries : List (String × TextToSvgPathOptions))

/-- The shape of the value the returned promise resolves to (single mode
may reject, carrying the wrapped error message). -/
inductive TtsOutput where
  | single (r : Except String TextToSvgPathResult)
  | multi (m : List (String × TextToSvgPathResult))

/-- Own enumerable keys present on an options object (required fields
`text` and `fontUrl` are always present; an optional field contributes
its key when it is set). -/
def optKey {α : Type} (name : String) (v : Option α) : List String :=
  match v with
  | none => []
  | some _ => [name]

def singleKeys (o : TextToSvgPathOptions) : List String :=
  ["text", "fontUrl"] ++ optKey "fontSize" o.fontSize ++ optKey "fill" o.fill ++
  optKey "stroke" o.stroke ++ optKey "strokeWidth" o.strokeWidth ++
  optKey "kerning" o.kerning ++ optKey "x" o.x ++ optKey "y" o.y ++
  optKey "width" o.width ++ optKey "height" o.height ++
  optKey "background" o.background ++ optKey "backgroundWidth" o.backgroundWidth ++
  optKey "backgroundHeight" o.backgroundHeight ++ optKey "backgroundX" o.backgroundX ++
  optKey "backgroundY" o.backgroundY ++ optKey "outputFormats" o.outputFormats

/-- The check `'k' in options` on the dynamic argument. -/
def inputHasKey : TtsInput → String → Bool
  | TtsInput.single o, k => (singleKeys o).contains k
  | TtsInput.multi m, k => (m.map Prod.fst).contains k

inductive Mode where
  | single
  | batch
deriving DecidableEq, Repr

/-- The mode discrimination check of line 22:
`if ('text' in options && 'fontUrl' in options)`. -/
def dispatchMode (i : TtsInput) : Mode :=
  if inputHasKey i "text" && inputHasKey i "fontUrl" then Mode.single else Mode.batch

/-- The entry point on well-typed inputs.  (A labelled mapping that
happens to use both `"text"` and `"fontUrl"` as labels would be
mis-dispatched by `dispatchMode` into single mode and then processed as
an ill-typed options object; `dispatchMode` is the model of the check
itself.) -/
def textToSvgPath (env : FontEnv) : TtsInput → TtsOutput
  | TtsInput.single o => TtsOutput.single (processSingleText env o)
  | TtsInput.multi entries => TtsOutput.multi (processMulti env entries)

/-! ## Concrete fixtures

A small deterministic environment used to evaluate the model on concrete
inputs: one geometry, a font engine that always succeeds, a font engine
whose `getPath` throws on the text `"boom"`, and fetch environments with
one good URL and 404s elsewhere. -/

def sampleGeom : PathGeom :=
  { toPathData := fun _ => "M0 0L10 10Z",
    bbox := { x1 := 0, y1 := -10, x2 := 50, y2 := 2 } }

def sampleFont : Font :=
  { getPath := fun _ _ _ _ _ => Except.ok sampleGeom }

/-- The 404 response served for every URL other than the good one. -/
def notFoundResp : FetchResponse :=
  { ok := false, status := 404, statusText := "Not Found", body := "" }

def sampleEnv : FontEnv :=
  { fetch := fun url =>
      if url = "https://fonts.example/a.ttf" then
        Except.ok { ok := true, status := 200, statusText := "OK", body := "fontbytes" }
      else
        Except.ok notFoundResp,
    parse := fun _ => Except.ok sampleFont }

/-- A font whose glyph-path computation throws on one particular text. -/
def failGlyphFont : Font :=
  { getPath := fun t _ _ _ _ =>
      if t = "boom" then Except.error "broken glyph" else Except.ok sampleGeom }

def failGlyphEnv : FontEnv :=
  { fetch := fun _ =>
      Except.ok { ok := true, status := 200, statusText := "OK", body := "fontbytes" },
    parse := fun _ => Except.ok failGlyphFont }

/-- An environment whose parse capability throws an error with an empty
message. -/
def emptyParseErrEnv : FontEnv :=
  { fetch := fun _ =>
      Except.ok { ok := true, status := 200, statusText := "OK", body := "fontbytes" },
    parse := fun _ => Except.error "" }

def goodUrl : String := "https://fonts.example/a.ttf"

def badUrl : String := "https://fonts.example/missing.ttf"

def reqA : TextToSvgPathOptions := { text := "one", fontUrl := goodUrl }

def reqB : TextToSvgPathOptions := { text := "two", fontUrl := goodUrl }

def reqC : TextToSvgPathOptions := { text := "three", fontUrl := goodUrl }

def reqBad : TextToSvgPathOptions := { text := "oops", fontUrl := badUrl }

def reqFine : TextToSvgPathOptions := { text := "fine", fontUrl := goodUrl }

def reqBoom : TextToSvgPathOptions := { text := "boom", fontUrl := goodUrl }

def reqWidthZero : TextToSvgPathOptions :=
  { text := "hi", fontUrl := goodUrl, width := some 0 }

def reqPathDataOnly : TextToSvgPathOptions :=
  { text := "hi", fontUrl := goodUrl, background := some "#333333",
    outputFormats := some [OutputFormat.pathData] }

/-! ## Helper lemmas -/

theorem countEv_append (t1 t2 : List FontEv) (e : FontEv) :
    countEv (t1 ++ t2) e = countEv t1 e + countEv t2 e := by
  simp [countEv, List.filter_append]

theorem concatMap_append {α β : Type} (f : α → List β) (l1 l2 : List α) :
    concatMap f (l1 ++ l2) = concatMap f l1 ++ concatMap f l2 := by
  induction l1 with
  | nil => rfl
  | cons a l ih => simp [concatMap, ih]

theorem mem_concatMap {α β : Type} (f : α → List β) (l : List α) (b : β) :
    b ∈ concatMap f l ↔ ∃ a ∈ l, b ∈ f a := by
  induction l with
  | nil => simp [concatMap]
  | cons a l ih => simp [concatMap, ih]


theorem map_concatMap {α β γ : Type} (f : α → List β) (g : β → γ) (l : List α) :
    (concatMap f l).map g = concatMap (fun a => (f a).map g) l := by
  induction l with
  | nil => rfl
  | cons a l ih => simp [concatMap, ih]

theorem concatMap_congr {α β : Type} {f f' : α → List β} {l : List α}
    (h : ∀ a ∈ l, f a = f' a) : concatMap f l = concatMap f' l := by
  induction l with
  | nil => rfl
  | cons a l ih =>
    simp only [concatMap, h a (by simp)]
    rw [ih fun a ha => h a (by simp [ha])]

theorem jsGet_eq_of_mem {α : Type} {m : List (String × α)} {k : String} {v : α}
    (hnd : (m.map Prod.fst).Nodup) (hmem : (k, v) ∈ m) : jsGet m k = some v := by
  induction m with
  | nil => simp at hmem
  | cons p m ih =>
    rcases List.mem_cons.1 hmem with h | h
    · subst h
      simp [jsGet, List.find?]
    · have hk : k ∈ m.map Prod.fst := List.mem_map.2 ⟨(k, v), h, rfl⟩
      have hne : p.1 ≠ k := by
        intro he
        exact (List.nodup_cons.1 hnd).1 (he ▸ hk)
      have hbeq : (p.1 == k) = false := by simp [hne]
      have := ih (List.nodup_cons.1 hnd).2 h
      simpa [jsGet, List.find?, hbeq] using this

theorem mkPathElement_ne_empty (pd f s w : String) : mkPathElement pd f s w ≠ "" := by
  intro h
  have h2 := congrArg String.length h
  simp only [mkPathElement, String.length_append] at h2
  have hlit : 0 < ("<path \n  d=\"" : String).length := by decide
  have h0 : ("" : String).length = 0 := by decide
  omega

theorem mkSvgString_ne_empty (w h vx vy : Rat) (inner : String) :
    mkSvgString w h vx vy inner ≠ "" := by
  intro he
  have h2 := congrArg String.length he
  simp only [mkSvgString, String.length_append] at h2
  have hlit : 0 < ("<svg \nxmlns=\"http://www.w3.org/2000/svg\" \nwidth=\"" : String).length := by
    decide
  have h0 : ("" : String).length = 0 := by decide
  omega

theorem shouldGenerate_none (f : OutputFormat) : shouldGenerate none f = true := rfl

theorem shouldGenerate_nil (f : OutputFormat) : shouldGenerate (some []) f = true := rfl

theorem shouldGenerate_cons (l : List OutputFormat) (hl : l ≠ []) (f : OutputFormat) :
    shouldGenerate (some l) f = true ↔ f ∈ l := by
  simp [shouldGenerate, List.isEmpty_iff, hl]

/-! ### Lemmas about the grouping loop -/

theorem updateGroup_keys (url : String) (e : String × TextToSvgPathOptions) :
    ∀ gs : List FontGroup, (updateGroup url e gs).map Prod.fst = gs.map Prod.fst := by
  intro gs
  induction gs with
  | nil => rfl
  | cons g gs ih =>
    by_cases h : g.1 = url <;> simp [updateGroup, h, ih]

theorem hasGroup_iff (gs : List FontGroup) (url : String) :
    (gs.any (fun g => g.1 = url)) = true ↔ url ∈ gs.map Prod.fst := by
  simp [List.any_eq_true, List.mem_map]

theorem groupInsert_keys (gs : List FontGroup) (e : String × TextToSvgPathOptions) :
    (groupInsert gs e).map Prod.fst =
      if e.2.fontUrl ∈ gs.map Prod.fst then gs.map Prod.fst
      else gs.map Prod.fst ++ [e.2.fontUrl] := by
  by_cases h : e.2.fontUrl ∈ gs.map Prod.fst
  · have hb : (gs.any (fun g => g.1 = e.2.fontUrl)) = true := (hasGroup_iff gs _).2 h
    simp [groupInsert, if_pos hb, updateGroup_keys, h]
  · have hb : ¬ ((gs.any (fun g => g.1 = e.2.fontUrl)) = true) := fun hc =>
      h ((hasGroup_iff gs _).1 hc)
    simp [groupInsert, if_neg hb, h]

theorem updateGroup_flat (url : String) (e : String × TextToSvgPathOptions) :
    ∀ gs : List FontGroup, url ∈ gs.map Prod.fst →
      List.Perm (concatMap (fun g => g.2) (updateGroup url e gs))
        (concatMap (fun g => g.2) gs ++ [e]) := by
  intro gs
  induction gs with
  | nil => intro h; simp at h
  | cons g gs ih =>
    intro hmem
    rw [List.map_cons] at hmem
    by_cases h : g.1 = url
    · simp only [updateGroup, if_pos h, concatMap]
      rw [List.append_assoc, List.append_assoc]
      exact List.Perm.append_left g.2 (List.perm_append_comm)
    · have hmem' : url ∈ gs.map Prod.fst := by
        rcases List.mem_cons.1 hmem with hc | hc
        · exact absurd hc.symm h
        · exact hc
      simp only [updateGroup, if_neg h, concatMap]
      rw [List.append_assoc]
      exact List.Perm.append_left g.2 (ih hmem')

theorem groupInsert_flat (gs : List FontGroup) (e : String × TextToSvgPathOptions) :
    List.Perm (concatMap (fun g => g.2) (groupInsert gs e))
      (concatMap (fun g => g.2) gs ++ [e]) := by
  by_cases h : e.2.fontUrl ∈ gs.map Prod.fst
  · have hb : (gs.any (fun g => g.1 = e.2.fontUrl)) = true := (hasGroup_iff gs _).2 h
    simp only [groupInsert, if_pos hb]
    exact updateGroup_flat _ e gs h
  · have hb : ¬ ((gs.any (fun g => g.1 = e.2.fontUrl)) = true) := fun hc =>
      h ((hasGroup_iff gs _).1 hc)
    simp [groupInsert, if_neg hb, concatMap_append, concatMap]

theorem foldl_groupInsert_flat (entries : List (String × TextToSvgPathOptions)) :
    ∀ gs : List FontGroup,
      List.Perm (concatMap (fun g => g.2) (List.foldl groupInsert gs entries))
        (concatMap (fun g => g.2) gs ++ entries) := by
  induction entries with
  | nil => intro gs; simp
  | cons a l ih =>
    intro gs
    rw [List.foldl_cons]
    have h1 := ih (groupInsert gs a)
    have h2 : List.Perm (concatMap (fun g => g.2) (groupInsert gs a) ++ l)
        ((concatMap (fun g => g.2) gs ++ [a]) ++ l) :=
      List.Perm.append_right l (groupInsert_flat gs a)
    have h3 : (concatMap (fun g => g.2) gs ++ [a]) ++ l =
        concatMap (fun g => g.2) gs ++ (a :: l) := by simp
    rw [← h3]
    exact h1.trans h2

theorem fontGroups_flat (entries : List (String × TextToSvgPathOptions)) :
    List.Perm (concatMap (fun g => g.2) (fontGroups entries)) entries := by
  have := foldl_groupInsert_flat entries []
  simpa [fontGroups, concatMap] using this

theorem foldl_groupInsert_keys_mem (entries : List (String × TextToSvgPathOptions))
    (u : String) :
    ∀ gs : List FontGroup,
      (u ∈ (List.foldl groupInsert gs entries).map Prod.fst ↔
        u ∈ gs.map Prod.fst ∨ u ∈ entries.map (fun p => p.2.fontUrl)) := by
  induction entries with
  | nil => intro gs; simp
  | cons a l ih =>
    intro gs
    rw [List.foldl_cons, ih (groupInsert gs a), groupInsert_keys]
    by_cases h : a.2.fontUrl ∈ gs.map Prod.fst
    · rw [if_pos h]
      constructor
      · intro hc
        rcases hc with hc | hc
        · exact Or.inl hc
        · exact Or.inr (by simp [hc])
      · intro hc
        rcases hc with hc | hc
        · exact Or.inl hc
        · rcases (by simpa using hc : u = a.2.fontUrl ∨ u ∈ l.map fun p => p.2.fontUrl) with
            hc2 | hc2
          · exact Or.inl (hc2 ▸ h)
          · exact Or.inr hc2
    · rw [if_neg h]
      constructor
      · intro hc
        rcases hc with hc | hc
        · rcases List.mem_append.1 hc with hc2 | hc2
          · exact Or.inl hc2
          · exact Or.inr (by simp [by simpa using hc2])
        · exact Or.inr (by simp [hc])
      · intro hc
        rcases hc with hc | hc
        · exact Or.inl (List.mem_append.2 (Or.inl hc))
        · rcases (by simpa using hc : u = a.2.fontUrl ∨ u ∈ l.map fun p => p.2.fontUrl) with
            hc2 | hc2
          · exact Or.inl (List.mem_append.2 (Or.inr (by simp [hc2])))
          · exact Or.inr hc2

theorem fontGroups_keys_mem (entries : List (String × TextToSvgPathOptions)) (u : String) :
    u ∈ (fontGroups entries).map Prod.fst ↔ u ∈ entries.map (fun p => p.2.fontUrl) := by
  have := foldl_groupInsert_keys_mem entries u []
  simpa [fontGroups] using this

theorem foldl_groupInsert_keys_nodup (entries : List (String × TextToSvgPathOptions)) :
    ∀ gs : List FontGroup, (gs.map Prod.fst).Nodup →
      ((List.foldl groupInsert gs entries).map Prod.fst).Nodup := by
  induction entries with
  | nil => intro gs h; simpa using h
  | cons a l ih =>
    intro gs h
    rw [List.foldl_cons]
    apply ih
    rw [groupInsert_keys]
    by_cases hm : a.2.fontUrl ∈ gs.map Prod.fst
    · rwa [if_pos hm]
    · rw [if_neg hm]
      rw [List.nodup_append]
      refine ⟨h, List.nodup_singleton _, ?_⟩
      intro x hx hy
      have hxy : x = a.2.fontUrl := by simpa using hy
      exact absurd (hxy ▸ hx) hm

theorem fontGroups_keys_nodup (entries : List (String × TextToSvgPathOptions)) :
    ((fontGroups entries).map Prod.fst).Nodup :=
  foldl_groupInsert_keys_nodup entries [] (by simp)

theorem updateGroup_url_inv (url : String) (e : String × TextToSvgPathOptions)
    (he : e.2.fontUrl = url) :
    ∀ gs : List FontGroup,
      (∀ p ∈ gs, ∀ q ∈ p.2, q.2.fontUrl = p.1) →
      ∀ p ∈ updateGroup url e gs, ∀ q ∈ p.2, q.2.fontUrl = p.1 := by
  intro gs
  induction gs with
  | nil => intro h p hp; simp [updateGroup] at hp
  | cons g gs ih =>
    intro h p hp q hq
    by_cases hg : g.1 = url
    · simp only [updateGroup, if_pos hg] at hp
      rcases List.mem_cons.1 hp with hc | hc
      · subst hc
        rcases List.mem_append.1 hq with hq2 | hq2
        · exact h g (by simp) q hq2
        · have hqe : q = e := by simpa using hq2
          subst hqe
          exact he.trans hg.symm
      · exact h p (by simp [hc]) q hq
    · simp only [updateGroup, if_neg hg] at hp
      rcases List.mem_cons.1 hp with hc | hc
      · subst hc
        exact h p (by simp) q hq
      · exact ih (fun p2 hp2 => h p2 (by simp [hp2])) p hc q hq

theorem groupInsert_url_inv (gs : List FontGroup) (e : String × TextToSvgPathOptions)
    (h : ∀ p ∈ gs, ∀ q ∈ p.2, q.2.fontUrl = p.1) :
    ∀ p ∈ groupInsert gs e, ∀ q ∈ p.2, q.2.fontUrl = p.1 := by
  intro p hp q hq
  by_cases hb : (gs.any (fun g => g.1 = e.2.fontUrl)) = true
  · simp only [groupInsert, if_pos hb] at hp
    exact updateGroup_url_inv e.2.fontUrl e rfl gs h p hp q hq
  · simp only [groupInsert, if_neg hb] at hp
    rcases List.mem_append.1 hp with hc | hc
    · exact h p hc q hq
    · have hpe : p = (e.2.fontUrl, [e]) := by simpa using hc
      subst hpe
      have hqe : q = e := by simpa using hq
      subst hqe
      rfl

theorem fontGroups_url_inv (entries : List (String × TextToSvgPathOptions)) :
    ∀ p ∈ fontGroups entries, ∀ q ∈ p.2, q.2.fontUrl = p.1 := by
  have haux : ∀ (l : List (String × TextToSvgPathOptions)) (gs : List FontGroup),
      (∀ p ∈ gs, ∀ q ∈ p.2, q.2.fontUrl = p.1) →
      ∀ p ∈ List.foldl groupInsert gs l, ∀ q ∈ p.2, q.2.fontUrl = p.1 := by
    intro l
    induction l with
    | nil => intro gs h; simpa using h
    | cons a l ih =>
      intro gs h
      rw [List.foldl_cons]
      exact ih (groupInsert gs a) (groupInsert_url_inv gs a h)
  exact haux entries [] (by simp)

theorem mem_fontGroups_of_mem_entries {entries : List (String × TextToSvgPathOptions)}
    {l : String} {o : TextToSvgPathOptions} (h : (l, o) ∈ entries) :
    ∃ g, (o.fontUrl, g) ∈ fontGroups entries ∧ (l, o) ∈ g := by
  have hflat : (l, o) ∈ concatMap (fun g => g.2) (fontGroups entries) :=
    (fontGroups_flat entries).mem_iff.2 h
  rcases (mem_concatMap _ _ _).1 hflat with ⟨p, hp, hmem⟩
  have hurl : o.fontUrl = p.1 := fontGroups_url_inv entries p hp (l, o) hmem
  refine ⟨p.2, ?_, hmem⟩
  rw [hurl]
  exact hp

/-! ### Lemmas about group processing -/

theorem generateGroup_labels (font : Font) :
    ∀ (g : List (String × TextToSvgPathOptions)) (rs : List (String × TextToSvgPathResult)),
      generateGroup font g = Except.ok rs → rs.map Prod.fst = g.map Prod.fst := by
  intro g
  induction g with
  | nil =>
    intro rs h
    simp [generateGroup] at h
    simp [← h]
  | cons p g ih =>
    intro rs h
    rcases p with ⟨l, o⟩
    simp only [generateGroup] at h
    cases hpr : processTextWithFont o font with
    | error e => rw [hpr] at h; exact absurd h (by simp)
    | ok r =>
      rw [hpr] at h
      cases hgr : generateGroup font g with
      | error e => rw [hgr] at h; exact absurd h (by simp)
      | ok rs2 =>
        rw [hgr] at h
        have hrs : rs = (l, r) :: rs2 := by
          simpa using h.symm
        subst hrs
        simp [ih rs2 hgr]

theorem generateGroup_mem (font : Font) :
    ∀ (g : List (String × TextToSvgPathOptions)) (rs : List (String × TextToSvgPathResult))
      (l : String) (o : TextToSvgPathOptions),
      generateGroup font g = Except.ok rs → (l, o) ∈ g →
      ∃ r, processTextWithFont o font = Except.ok r ∧ (l, r) ∈ rs := by
  intro g
  induction g with
  | nil => intro rs l o h hm; simp at hm
  | cons p g ih =>
    intro rs l o h hm
    rcases p with ⟨l2, o2⟩
    simp only [generateGroup] at h
    cases hpr : processTextWithFont o2 font with
    | error e => rw [hpr] at h; exact absurd h (by simp)
    | ok r =>
      rw [hpr] at h
      cases hgr : generateGroup font g with
      | error e => rw [hgr] at h; exact absurd h (by simp)
      | ok rs2 =>
        rw [hgr] at h
        have hrs : rs = (l2, r) :: rs2 := by simpa using h.symm
        subst hrs
        rcases List.mem_cons.1 hm with hc | hc
        · have hl : l = l2 ∧ o = o2 := by simpa using hc
          rcases hl with ⟨hl1, hl2⟩
          subst hl1; subst hl2
          exact ⟨r, hpr, by simp⟩
        · rcases ih rs2 l o hgr hc with ⟨r2, hr2, hmem2⟩
          exact ⟨r2, hr2, by simp [hmem2]⟩

theorem generateGroup_total (font : Font) :
    ∀ g : List (String × TextToSvgPathOptions),
      (∀ p ∈ g, ∃ r, processTextWithFont p.2 font = Except.ok r) →
      ∃ rs, generateGroup font g = Except.ok rs := by
  intro g
  induction g with
  | nil => intro h; exact ⟨[], rfl⟩
  | cons p g ih =>
    intro h
    rcases h p (by simp) with ⟨r, hr⟩
    rcases ih (fun q hq => h q (by simp [hq])) with ⟨rs, hrs⟩
    rcases p with ⟨l, o⟩
    exact ⟨(l, r) :: rs, by simp [generateGroup, hr, hrs]⟩

theorem processGroup_labels (env : FontEnv) (url : String)
    (g : List (String × TextToSvgPathOptions)) :
    (processGroup env url g).map Prod.fst = g.map Prod.fst := by
  unfold processGroup
  cases hres : resolveFont env url with
  | error e => simp
  | ok font =>
    cases hgen : generateGroup font g with
    | error e => simp [hgen]
    | ok rs => simp [hgen, generateGroup_labels font g rs hgen]

theorem processGroup_resolve_error {env : FontEnv} {url : String} {e : String}
    (g : List (String × TextToSvgPathOptions))
    (h : resolveFont env url = Except.error e) :
    processGroup env url g = g.map (fun p => (p.1, errorResult e)) := by
  simp [processGroup, h]

theorem processGroup_gen_error {env : FontEnv} {url : String} {font : Font} {e : String}
    (g : List (String × TextToSvgPathOptions))
    (hres : resolveFont env url = Except.ok font)
    (hgen : generateGroup font g = Except.error e) :
    processGroup env url g = g.map (fun p => (p.1, errorResult e)) := by
  simp [processGroup, hres, hgen]

theorem processGroup_ok {env : FontEnv} {url : String} {font : Font}
    {rs : List (String × TextToSvgPathResult)}
    (g : List (String × TextToSvgPathOptions))
    (hres : resolveFont env url = Except.ok font)
    (hgen : generateGroup font g = Except.ok rs) :
    processGroup env url g = rs := by
  simp [processGroup, hres, hgen]

theorem processMulti_labels_perm (env : FontEnv)
    (entries : List (String × TextToSvgPathOptions)) :
    List.Perm ((processMulti env entries).map Prod.fst) (entries.map Prod.fst) := by
  have h1 : (processMulti env entries).map Prod.fst =
      concatMap (fun g => (processGroup env g.1 g.2).map Prod.fst) (fontGroups entries) :=
    map_concatMap _ _ _
  have h2 : concatMap (fun g => (processGroup env g.1 g.2).map Prod.fst) (fontGroups entries) =
      concatMap (fun g => g.2.map Prod.fst) (fontGroups entries) :=
    concatMap_congr (fun g _ => processGroup_labels env g.1 g.2)
  have h3 : concatMap (fun g => g.2.map Prod.fst) (fontGroups entries) =
      (concatMap (fun g => g.2) (fontGroups entries)).map Prod.fst :=
    (map_concatMap _ _ _).symm
  rw [h1, h2, h3]
  exact (fontGroups_flat entries).map Prod.fst

theorem processMulti_keys_nodup (env : FontEnv)
    (entries : List (String × TextToSvgPathOptions))
    (hnd : (entries.map Prod.fst).Nodup) :
    ((processMulti env entries).map Prod.fst).Nodup :=
  (processMulti_labels_perm env entries).nodup_iff.2 hnd

/-! ### Lemmas about the invocation trace -/

theorem resolveFontT_trace_fetch (env : FontEnv) (url u : String) :
    countEv (resolveFontT env url).2 (FontEv.fetch u) = if url = u then 1 else 0 := by
  by_cases hu : url = u
  · subst hu
    cases henv : env.fetch url with
    | error e => simp [resolveFontT, henv, countEv, List.filter]
    | ok resp =>
      by_cases hok : resp.ok
      · simp [resolveFontT, henv, hok, countEv, List.filter]
      · simp [resolveFontT, henv, hok, countEv, List.filter]
  · cases henv : env.fetch url with
    | error e => simp [resolveFontT, henv, countEv, List.filter, hu]
    | ok resp =>
      by_cases hok : resp.ok
      · simp [resolveFontT, henv, hok, countEv, List.filter, hu]
      · simp [resolveFontT, henv, hok, countEv, List.filter, hu]

theorem resolveFontT_trace_parse (env : FontEnv) (url u : String) :
    countEv (resolveFontT env url).2 (FontEv.parse u) =
      if url = u ∧ fetchDelivers env url = true then 1 else 0 := by
  cases henv : env.fetch url with
  | error e =>
    simp [resolveFontT, henv, countEv, List.filter, fetchDelivers]
  | ok resp =>
    by_cases hok : resp.ok
    · by_cases hu : url = u
      · subst hu
        simp [resolveFontT, henv, hok, countEv, List.filter, fetchDelivers]
      · simp [resolveFontT, henv, hok, countEv, List.filter, fetchDelivers, hu]
    · simp [resolveFontT, henv, hok, countEv, List.filter, fetchDelivers]

theorem trace_count_fetch (env : FontEnv) (u : String) :
    ∀ gs : List FontGroup, (gs.map Prod.fst).Nodup →
      countEv (concatMap (fun g => (resolveFontT env g.1).2) gs) (FontEv.fetch u) =
        if u ∈ gs.map Prod.fst then 1 else 0 := by
  intro gs
  induction gs with
  | nil => intro h; simp [concatMap, countEv]
  | cons g gs ih =>
    intro hnd
    rw [List.map_cons, List.nodup_cons] at hnd
    simp only [concatMap]
    rw [countEv_append, resolveFontT_trace_fetch, ih hnd.2]
    by_cases hgu : g.1 = u
    · have hnm : u ∉ gs.map Prod.fst := hgu ▸ hnd.1
      simp [hgu, hnm]
    · have hne : ¬ u = g.1 := fun h2 => hgu h2.symm
      by_cases hm : u ∈ gs.map Prod.fst
      · simp [hgu, hm, hne]
      · simp [hgu, hm, hne]

theorem trace_count_parse (env : FontEnv) (u : String) :
    ∀ gs : List FontGroup, (gs.map Prod.fst).Nodup →
      countEv (concatMap (fun g => (resolveFontT env g.1).2) gs) (FontEv.parse u) =
        if u ∈ gs.map Prod.fst ∧ fetchDelivers env u = true then 1 else 0 := by
  intro gs
  induction gs with
  | nil => intro h; simp [concatMap, countEv]
  | cons g gs ih =>
    intro hnd
    rw [List.map_cons, List.nodup_cons] at hnd
    simp only [concatMap]
    rw [countEv_append, resolveFontT_trace_parse, ih hnd.2]
    by_cases hgu : g.1 = u
    · have hnm : u ∉ gs.map Prod.fst := hgu ▸ hnd.1
      by_cases hd : fetchDelivers env u = true
      · simp [hgu, hnm, hd]
      · simp [hgu, hnm, hd]
    · have hne : ¬ u = g.1 := fun h2 => hgu h2.symm
      by_cases hm : u ∈ gs.map Prod.fst
      · simp [hgu, hm, hne]
      · simp [hgu, hm, hne]

/-! ### Lemmas about result generation -/

theorem buildResult_pathData (o : TextToSvgPathOptions) (path : PathGeom) :
    (buildResult o path).pathData = path.toPathData 2 := rfl

theorem buildResult_pathElement (o : TextToSvgPathOptions) (path : PathGeom) :
    (buildResult o path).pathElement =
      if shouldGenerate o.outputFormats OutputFormat.pathElement then
        mkPathElement (path.toPathData 2) (effFill o) (effStroke o) (effStrokeWidth o)
      else "" := rfl

theorem buildResult_svgWithBackground (o : TextToSvgPathOptions) (path : PathGeom) :
    (buildResult o path).svgWithBackground =
      if shouldGenerate o.outputFormats OutputFormat.svgWithBackground
          && jsTruthyStr o.background then
        some (mkSvgWithBackground (effBackgroundWidth o) (effBackgroundHeight o)
          (o.background.getD "") (path.toPathData 2)
          (effBackgroundX o) (effBackgroundY o)
          (effFill o) (effStroke o) (effStrokeWidth o))
      else none := rfl

theorem buildResult_svg (o : TextToSvgPathOptions) (path : PathGeom) :
    (buildResult o path).svg =
      if shouldGenerate o.outputFormats OutputFormat.svg then
        mkSvgString (svgWidth o path) (svgHeight o path)
          (path.bbox.x1 - svgPadding o) (path.bbox.y1 - svgPadding o)
          (mkPathElement (path.toPathData 2) (effFill o) (effStroke o) (effStrokeWidth o))
      else "" := by
  by_cases hpe : shouldGenerate o.outputFormats OutputFormat.pathElement = true
  · simp [buildResult, hpe, mkPathElement_ne_empty]
  · simp [buildResult, hpe]

theorem processTextWithFont_ok {o : TextToSvgPathOptions} {font : Font} {path : PathGeom}
    (h : font.getPath o.text (effX o) (effY o) (effFontSize o) (effKerning o) =
      Except.ok path) :
    processTextWithFont o font = Except.ok (buildResult o path) := by
  simp [processTextWithFont, h]

theorem processTextWithFont_ok_inv {o : TextToSvgPathOptions} {font : Font}
    {r : TextToSvgPathResult} (h : processTextWithFont o font = Except.ok r) :
    ∃ path, font.getPath o.text (effX o) (effY o) (effFontSize o) (effKerning o) =
      Except.ok path ∧ r = buildResult o path := by
  unfold processTextWithFont at h
  cases hp : font.getPath o.text (effX o) (effY o) (effFontSize o) (effKerning o) with
  | error e => rw [hp] at h; exact absurd h (by simp)
  | ok path =>
    rw [hp] at h
    exact ⟨path, rfl, by simpa using h.symm⟩

theorem fetchFailMsg_ne_empty (resp : FetchResponse) : fetchFailMsg resp ≠ "" := by
  intro h
  have h2 := congrArg String.length h
  simp only [fetchFailMsg, String.length_append] at h2
  have hlit : 0 < ("Failed to fetch font: " : String).length := by decide
  have h0 : ("" : String).length = 0 := by decide
  omega

theorem resolveFont_fetch_not_ok {env : FontEnv} {url : String} {resp : FetchResponse}
    (henv : env.fetch url = Except.ok resp) (hok : resp.ok = false) :
    resolveFont env url = Except.error (fetchFailMsg resp) := by
  simp [resolveFont, resolveFontT, henv, hok]

/-! ## The claims -/

/-- C7: an input object to `textToSvgPath` is processed in single-request
mode if and only if it has both a `text` field and a `fontUrl` field
directly on it; otherwise it is treated as a label-to-request mapping in
batch mode.  (An options object always carries both required fields, so
genuine single requests always take single mode.) -/
theorem claim_C7_mode_discrimination :
    (∀ i : TtsInput, dispatchMode i = Mode.single ↔
      (inputHasKey i "text" = true ∧ inputHasKey i "fontUrl" = true)) ∧
    (∀ i : TtsInput, dispatchMode i = Mode.batch ↔
      ¬ (inputHasKey i "text" = true ∧ inputHasKey i "fontUrl" = true)) ∧
    (∀ o : TextToSvgPathOptions, dispatchMode (TtsInput.single o) = Mode.single) := by
  have hmain : ∀ i : TtsInput, dispatchMode i = Mode.single ↔
      (inputHasKey i "text" = true ∧ inputHasKey i "fontUrl" = true) := by
    intro i
    constructor
    · intro h
      by_cases hc : (inputHasKey i "text" && inputHasKey i "fontUrl") = true
      · exact Bool.and_eq_true_iff.1 hc
      · rw [dispatchMode, if_neg hc] at h
        exact absurd h (by simp)
    · rintro ⟨h1, h2⟩
      rw [dispatchMode, if_pos (by rw [h1, h2]; rfl)]
  refine ⟨hmain, ?_, ?_⟩
  · intro i
    constructor
    · intro h hc
      rw [(hmain i).2 hc] at h
      exact absurd h (by simp)
    · intro hc
      cases hd : dispatchMode i with
      | single => exact absurd ((hmain i).1 hd) hc
      | batch => rfl
  · intro o
    have h1 : inputHasKey (TtsInput.single o) "text" = true := by
      simp [inputHasKey, singleKeys]
    have h2 : inputHasKey (TtsInput.single o) "fontUrl" = true := by
      simp [inputHasKey, singleKeys]
    exact (hmain (TtsInput.single o)).2 ⟨h1, h2⟩

/-- Witness for C7 at concrete inputs: a genuine options object is
dispatched to single mode, and a mapping with labels other than
`text`/`fontUrl` is dispatched to batch mode. -/
theorem claim_C7_mode_discrimination_witness :
    dispatchMode (TtsInput.single reqA) = Mode.single ∧
    dispatchMode (TtsInput.multi [("title", reqA), ("subtitle", reqB)]) = Mode.batch :=
  ⟨claim_C7_mode_discrimination.2.2 reqA,
   (claim_C7_mode_discrimination.2.1 (TtsInput.multi [("title", reqA), ("subtitle", reqB)])).2
     (by decide)⟩

/-- C10: the empty input object lacks `text` and `fontUrl`, is treated as
a batch mapping with no labels, returns the empty mapping, and performs
no font fetch and no font parse. -/
theorem claim_C10_empty_input (env : FontEnv) :
    inputHasKey (TtsInput.multi []) "text" = false ∧
    inputHasKey (TtsInput.multi []) "fontUrl" = false ∧
    dispatchMode (TtsInput.multi []) = Mode.batch ∧
    textToSvgPath env (TtsInput.multi []) = TtsOutput.multi [] ∧
    multiTrace env [] = [] := by
  refine ⟨rfl, rfl, rfl, rfl, rfl⟩

/-- Witness for C10 at the concrete sample environment. -/
theorem claim_C10_empty_input_witness :
    textToSvgPath sampleEnv (TtsInput.multi []) = TtsOutput.multi [] ∧
    multiTrace sampleEnv [] = [] :=
  ⟨(claim_C10_empty_input sampleEnv).2.2.2.1, (claim_C10_empty_input sampleEnv).2.2.2.2⟩

/-- C5: for every successfully generated result, `svgWithBackground` is
present if and only if `background` is a non-empty value and
`outputFormats` is absent, empty, or includes `svgWithBackground`; with
`background` absent the field is omitted regardless of the filter. -/
theorem claim_C5_background_precondition
    (o : TextToSvgPathOptions) (font : Font) (r : TextToSvgPathResult)
    (h : processTextWithFont o font = Except.ok r) :
    (r.svgWithBackground.isSome = true ↔
      (jsTruthyStr o.background = true ∧
        shouldGenerate o.outputFormats OutputFormat.svgWithBackground = true)) ∧
    (o.background = none → r.svgWithBackground = none) ∧
    (jsTruthyStr o.background = true ↔ ∃ s, o.background = some s ∧ s ≠ "") ∧
    (shouldGenerate o.outputFormats OutputFormat.svgWithBackground = true ↔
      (o.outputFormats = none ∨ o.outputFormats = some [] ∨
        ∃ l, o.outputFormats = some l ∧ OutputFormat.svgWithBackground ∈ l)) := by
  rcases processTextWithFont_ok_inv h with ⟨path, hp, hr⟩
  subst hr
  refine ⟨?_, ?_, ?_, ?_⟩
  · rw [buildResult_svgWithBackground]
    by_cases hB : shouldGenerate o.outputFormats OutputFormat.svgWithBackground = true
    · by_cases hT : jsTruthyStr o.background = true
      · simp [hB, hT]
      · simp [hB, hT]
    · by_cases hT : jsTruthyStr o.background = true
      · simp [hB, hT]
      · simp [hB, hT]
  · intro hb
    rw [buildResult_svgWithBackground]
    simp [jsTruthyStr, hb]
  · cases hb : o.background with
    | none => simp [jsTruthyStr]
    | some s => simp [jsTruthyStr]
  · cases ho : o.outputFormats with
    | none => simp [shouldGenerate]
    | some l =>
      cases l with
      | nil => simp [shouldGenerate]
      | cons a t =>
        rw [shouldGenerate_cons (a :: t) (by simp)]
        constructor
        · intro hm
          exact Or.inr (Or.inr ⟨a :: t, rfl, hm⟩)
        · rintro (hc | hc | ⟨l2, hl2, hmem⟩)
          · exact absurd hc (by simp)
          · exact absurd hc (by simp)
          · have : l2 = a :: t := by simpa using hl2.symm
            exact this ▸ hmem

/-- Witness for C5: a request with a non-empty background and no format
filter yields a present `svgWithBackground`, as the theorem's
equivalence demands at this input. -/
theorem claim_C5_background_precondition_witness :
    processTextWithFont { text := "hi", fontUrl := goodUrl, background := some "#333333" }
        sampleFont =
      Except.ok (buildResult { text := "hi", fontUrl := goodUrl, background := some "#333333" }
        sampleGeom) ∧
    (buildResult { text := "hi", fontUrl := goodUrl, background := some "#333333" }
        sampleGeom).svgWithBackground.isSome = true :=
  ⟨rfl,
   (claim_C5_background_precondition _ sampleFont _ rfl).1.2 ⟨rfl, rfl⟩⟩

/-- C4: `pathData` is always computed; with `outputFormats` absent or
empty every string format is produced; with a non-empty list a string
format is produced exactly when named (and a present `svgWithBackground`
implies it was named); with `outputFormats = [pathData]`, `pathElement`
and `svg` are empty and `svgWithBackground` is absent even when
`background` is set. -/
theorem claim_C4_format_filtering
    (o : TextToSvgPathOptions) (font : Font) (r : TextToSvgPathResult)
    (h : processTextWithFont o font = Except.ok r) :
    (∃ path, font.getPath o.text (effX o) (effY o) (effFontSize o) (effKerning o) =
        Except.ok path ∧ r.pathData = path.toPathData 2) ∧
    ((o.outputFormats = none ∨ o.outputFormats = some []) →
      r.pathElement ≠ "" ∧ r.svg ≠ "") ∧
    (∀ l, o.outputFormats = some l → l ≠ [] →
      ((r.pathElement ≠ "" ↔ OutputFormat.pathElement ∈ l) ∧
       (r.svg ≠ "" ↔ OutputFormat.svg ∈ l) ∧
       (r.svgWithBackground.isSome = true → OutputFormat.svgWithBackground ∈ l))) ∧
    (o.outputFormats = some [OutputFormat.pathData] →
      r.pathElement = "" ∧ r.svg = "" ∧ r.svgWithBackground = none) := by
  rcases processTextWithFont_ok_inv h with ⟨path, hp, hr⟩
  subst hr
  refine ⟨⟨path, hp, buildResult_pathData o path⟩, ?_, ?_, ?_⟩
  · intro ho
    have hpe : shouldGenerate o.outputFormats OutputFormat.pathElement = true := by
      rcases ho with ho | ho <;> rw [ho] <;> rfl
    have hsv : shouldGenerate o.outputFormats OutputFormat.svg = true := by
      rcases ho with ho | ho <;> rw [ho] <;> rfl
    constructor
    · rw [buildResult_pathElement, if_pos hpe]
      exact mkPathElement_ne_empty _ _ _ _
    · rw [buildResult_svg, if_pos hsv]
      exact mkSvgString_ne_empty _ _ _ _ _
  · intro l ho hl
    refine ⟨?_, ?_, ?_⟩
    · by_cases hm : OutputFormat.pathElement ∈ l
      · have ht : shouldGenerate o.outputFormats OutputFormat.pathElement = true := by
          rw [ho]; exact (shouldGenerate_cons l hl _).2 hm
        rw [buildResult_pathElement, if_pos ht]
        simp [mkPathElement_ne_empty, hm]
      · have ht : ¬ shouldGenerate o.outputFormats OutputFormat.pathElement = true := by
          rw [ho]
          intro hc
          exact hm ((shouldGenerate_cons l hl _).1 hc)
        rw [buildResult_pathElement, if_neg ht]
        simp [hm]
    · by_cases hm : OutputFormat.svg ∈ l
      · have ht : shouldGenerate o.outputFormats OutputFormat.svg = true := by
          rw [ho]; exact (shouldGenerate_cons l hl _).2 hm
        rw [buildResult_svg, if_pos ht]
        simp [mkSvgString_ne_empty, hm]
      · have ht : ¬ shouldGenerate o.outputFormats OutputFormat.svg = true := by
          rw [ho]
          intro hc
          exact hm ((shouldGenerate_cons l hl _).1 hc)
        rw [buildResult_svg, if_neg ht]
        simp [hm]
    · intro hs
      rw [buildResult_svgWithBackground] at hs
      by_cases hc : (shouldGenerate o.outputFormats OutputFormat.svgWithBackground
          && jsTruthyStr o.background) = true
      · have hb : shouldGenerate o.outputFormats OutputFormat.svgWithBackground = true :=
          (Bool.and_eq_true_iff.1 hc).1
        rw [ho] at hb
        exact (shouldGenerate_cons l hl _).1 hb
      · rw [if_neg hc] at hs
        simp at hs
  · intro ho
    have h1 : shouldGenerate (some [OutputFormat.pathData]) OutputFormat.pathElement
        = false := by decide
    have h2 : shouldGenerate (some [OutputFormat.pathData]) OutputFormat.svg
        = false := by decide
    have h3 : shouldGenerate (some [OutputFormat.pathData]) OutputFormat.svgWithBackground
        = false := by decide
    refine ⟨?_, ?_, ?_⟩
    · rw [buildResult_pathElement, ho, h1]
      simp
    · rw [buildResult_svg, ho, h2]
      simp
    · rw [buildResult_svgWithBackground, ho, h3]
      simp

/-- Witness for C4: with `outputFormats = [pathData]` and a background
set, the generated result has empty `pathElement` and `svg` and no
`svgWithBackground`. -/
theorem claim_C4_format_filtering_witness :
    processTextWithFont reqPathDataOnly sampleFont =
      Except.ok (buildResult reqPathDataOnly sampleGeom) ∧
    reqPathDataOnly.outputFormats = some [OutputFormat.pathData] ∧
    reqPathDataOnly.background = some "#333333" ∧
    (buildResult reqPathDataOnly sampleGeom).pathElement = "" ∧
    (buildResult reqPathDataOnly sampleGeom).svg = "" ∧
    (buildResult reqPathDataOnly sampleGeom).svgWithBackground = none := by
  have h := (claim_C4_format_filtering reqPathDataOnly sampleFont
    (buildResult reqPathDataOnly sampleGeom) rfl).2.2.2 rfl
  exact ⟨rfl, rfl, rfl, h.1, h.2.1, h.2.2⟩

/-- C8 (amended): when the `svg` format is produced the SVG uses padding
`fontSize * 0.2`, viewBox origin `(bbox.x1 - padding, bbox.y1 - padding)`,
and the computed width/height as viewBox size; width/height equal the
request's explicit values when given **and non-zero** (JavaScript `||`
truthiness), and otherwise `ceil(bbox span + 2 * padding)` per axis. -/
theorem claim_C8_svg_geometry
    (o : TextToSvgPathOptions) (font : Font) (path : PathGeom)
    (hpath : font.getPath o.text (effX o) (effY o) (effFontSize o) (effKerning o) =
      Except.ok path)
    (hsvg : shouldGenerate o.outputFormats OutputFormat.svg = true) :
    ∃ r, processTextWithFont o font = Except.ok r ∧
      r.svg = mkSvgString (svgWidth o path) (svgHeight o path)
        (path.bbox.x1 - svgPadding o) (path.bbox.y1 - svgPadding o)
        (mkPathElement (path.toPathData 2) (effFill o) (effStroke o) (effStrokeWidth o)) ∧
      svgPadding o = effFontSize o * (0.2 : Rat) ∧
      (∀ w, o.width = some w → w ≠ 0 → svgWidth o path = w) ∧
      ((o.width = none ∨ o.width = some 0) →
        svgWidth o path = mathCeil (path.bbox.x2 - path.bbox.x1 + svgPadding o * 2)) ∧
      (∀ hv, o.height = some hv → hv ≠ 0 → svgHeight o path = hv) ∧
      ((o.height = none ∨ o.height = some 0) →
        svgHeight o path = mathCeil (path.bbox.y2 - path.bbox.y1 + svgPadding o * 2)) := by
  refine ⟨buildResult o path, processTextWithFont_ok hpath, ?_, rfl, ?_, ?_, ?_, ?_⟩
  · rw [buildResult_svg, if_pos hsvg]
  · intro w hw hw0
    simp [svgWidth, jsOrNum, hw, hw0]
  · rintro (hw | hw) <;> simp [svgWidth, jsOrNum, hw]
  · intro hv hh hh0
    simp [svgHeight, jsOrNum, hh, hh0]
  · rintro (hh | hh) <;> simp [svgHeight, jsOrNum, hh]

/-- Witness for C8 at a concrete request with no explicit dimensions. -/
theorem claim_C8_svg_geometry_witness :
    ∃ r, processTextWithFont reqA sampleFont = Except.ok r ∧
      r.svg = mkSvgString (svgWidth reqA sampleGeom) (svgHeight reqA sampleGeom)
        (sampleGeom.bbox.x1 - svgPadding reqA) (sampleGeom.bbox.y1 - svgPadding reqA)
        (mkPathElement (sampleGeom.toPathData 2) (effFill reqA) (effStroke reqA)
          (effStrokeWidth reqA)) := by
  rcases claim_C8_svg_geometry reqA sampleFont sampleGeom rfl rfl with ⟨r, h1, h2, h3⟩
  exact ⟨r, h1, h2⟩

set_option maxRecDepth 4000 in
unseal Rat.mul Rat.add Rat.sub Rat.inv Rat.ofScientific in
/-- Counterexample to C8 as stated: with an explicit `width` of `0` the
generated SVG does not use the explicit width — `options.width || ...`
treats `0` as absent and falls back to the bounding-box computation
(width 79 here). -/
theorem claim_C8_counterexample :
    reqWidthZero.width = some 0 ∧
    processTextWithFont reqWidthZero sampleFont =
      Except.ok (buildResult reqWidthZero sampleGeom) ∧
    (buildResult reqWidthZero sampleGeom).svg =
      mkSvgString 79 41 (Rat.mk' (-72) 5) (Rat.mk' (-122) 5)
        (mkPathElement "M0 0L10 10Z" "#000000" "none" "0") ∧
    (buildResult reqWidthZero sampleGeom).svg ≠
      mkSvgString 0 41 (Rat.mk' (-72) 5) (Rat.mk' (-122) 5)
        (mkPathElement "M0 0L10 10Z" "#000000" "none" "0") := by
  refine ⟨rfl, rfl, ?_, ?_⟩
  · decide
  · decide

/-- C3 (amended): in single mode any font resolution failure rejects the
whole call with `Error generating SVG path: ` followed by the underlying
message — or by `Unknown error` when that message is empty.  In
particular a non-success response status always yields the composed
message with the underlying `Failed to fetch font: ...` text. -/
theorem claim_C3_single_failure (env : FontEnv) (o : TextToSvgPathOptions) (e : String)
    (h : resolveFont env o.fontUrl = Except.error e) :
    processSingleText env o = Except.error
      ("Error generating SVG path: " ++ (if e = "" then "Unknown error" else e)) ∧
    (e ≠ "" → processSingleText env o = Except.error ("Error generating SVG path: " ++ e)) ∧
    (∀ resp, env.fetch o.fontUrl = Except.ok resp → resp.ok = false →
      processSingleText env o =
        Except.error ("Error generating SVG path: " ++ fetchFailMsg resp)) := by
  have h1 : processSingleText env o = Except.error (wrapSingleError e) := by
    simp [processSingleText, h]
  refine ⟨?_, ?_, ?_⟩
  · rw [h1]
    rfl
  · intro he
    rw [h1]
    simp [wrapSingleError, he]
  · intro resp henv hok
    have h2 : resolveFont env o.fontUrl = Except.error (fetchFailMsg resp) :=
      resolveFont_fetch_not_ok henv hok
    have h3 : e = fetchFailMsg resp := by
      have := h.symm.trans h2
      simpa using this
    rw [h1, h3]
    simp [wrapSingleError, fetchFailMsg_ne_empty resp]

/-- Witness for C3 at a concrete 404 URL. -/
theorem claim_C3_single_failure_witness :
    resolveFont sampleEnv reqBad.fontUrl = Except.error (fetchFailMsg notFoundResp) ∧
    processSingleText sampleEnv reqBad =
      Except.error ("Error generating SVG path: " ++ fetchFailMsg notFoundResp) :=
  ⟨rfl, (claim_C3_single_failure sampleEnv reqBad (fetchFailMsg notFoundResp) rfl).2.1
    (fetchFailMsg_ne_empty notFoundResp)⟩

/-- Counterexample to C3 as stated: when the parser throws an error whose
message is empty, the composed message is
`Error generating SVG path: Unknown error`, not the claimed
`Error generating SVG path: ` followed by the (empty) underlying
message. -/
theorem claim_C3_counterexample :
    processSingleText emptyParseErrEnv reqA =
      Except.error "Error generating SVG path: Unknown error" ∧
    "Error generating SVG path: Unknown error" ≠ "Error generating SVG path: " ++ "" := by
  refine ⟨rfl, by decide⟩

/-- C1: in batch mode each distinct referenced `fontUrl` is fetched
exactly once, and parsed exactly once whenever the fetch delivers bytes
(never more than once), regardless of how many requests reference it. -/
theorem claim_C1_dedup (env : FontEnv) (entries : List (String × TextToSvgPathOptions))
    (u : String) (hmem : u ∈ entries.map (fun p => p.2.fontUrl)) :
    countEv (multiTrace env entries) (FontEv.fetch u) = 1 ∧
    countEv (multiTrace env entries) (FontEv.parse u) ≤ 1 ∧
    (fetchDelivers env u = true →
      countEv (multiTrace env entries) (FontEv.parse u) = 1) := by
  have hk : u ∈ (fontGroups entries).map Prod.fst := (fontGroups_keys_mem entries u).2 hmem
  have hnd := fontGroups_keys_nodup entries
  have hf := trace_count_fetch env u (fontGroups entries) hnd
  have hp2 := trace_count_parse env u (fontGroups entries) hnd
  have hmt : multiTrace env entries =
      concatMap (fun g => (resolveFontT env g.1).2) (fontGroups entries) := rfl
  refine ⟨?_, ?_, ?_⟩
  · rw [hmt, hf, if_pos hk]
  · rw [hmt, hp2]
    by_cases hC : (u ∈ (fontGroups entries).map Prod.fst ∧ fetchDelivers env u = true)
    · rw [if_pos hC]
    · rw [if_neg hC]
      exact Nat.zero_le 1
  · intro hd
    rw [hmt, hp2, if_pos ⟨hk, hd⟩]

/-- Witness for C1: three requests sharing one URL cause one fetch and
one parse. -/
theorem claim_C1_dedup_witness :
    (goodUrl ∈ [("k1", reqA), ("k2", reqB), ("k3", reqC)].map (fun p => p.2.fontUrl)) ∧
    countEv (multiTrace sampleEnv [("k1", reqA), ("k2", reqB), ("k3", reqC)])
      (FontEv.fetch goodUrl) = 1 ∧
    countEv (multiTrace sampleEnv [("k1", reqA), ("k2", reqB), ("k3", reqC)])
      (FontEv.parse goodUrl) = 1 :=
  ⟨by decide,
   (claim_C1_dedup sampleEnv [("k1", reqA), ("k2", reqB), ("k3", reqC)] goodUrl (by decide)).1,
   (claim_C1_dedup sampleEnv [("k1", reqA), ("k2", reqB), ("k3", reqC)] goodUrl
     (by decide)).2.2 rfl⟩

/-- C6: batch output carries exactly the input's labels (a permutation;
with distinct input labels each label appears exactly once), and a single
request yields a single result. -/
theorem claim_C6_shape_preservation (env : FontEnv)
    (entries : List (String × TextToSvgPathOptions)) (o : TextToSvgPathOptions) :
    textToSvgPath env (TtsInput.multi entries) = TtsOutput.multi (processMulti env entries) ∧
    List.Perm ((processMulti env entries).map Prod.fst) (entries.map Prod.fst) ∧
    ((entries.map Prod.fst).Nodup → ((processMulti env entries).map Prod.fst).Nodup) ∧
    textToSvgPath env (TtsInput.single o) = TtsOutput.single (processSingleText env o) :=
  ⟨rfl, processMulti_labels_perm env entries,
   fun hnd => processMulti_keys_nodup env entries hnd, rfl⟩

/-- Witness for C6 on a two-label batch (one failing URL). -/
theorem claim_C6_shape_preservation_witness :
    List.Perm ((processMulti sampleEnv [("k1", reqA), ("k2", reqBad)]).map Prod.fst)
      ([("k1", reqA), ("k2", reqBad)].map Prod.fst) ∧
    ((processMulti sampleEnv [("k1", reqA), ("k2", reqBad)]).map Prod.fst).Nodup := by
  have h := claim_C6_shape_preservation sampleEnv [("k1", reqA), ("k2", reqBad)] reqA
  exact ⟨h.2.1, h.2.2.1 (by decide)⟩

/-- C2: a font-group failure never aborts the batch — every label of the
failing group gets the degraded `errorResult` (empty `pathData` and
`pathElement`, an SVG embedding the error message, no
`svgWithBackground`), the output still covers all labels, and labels in
fully succeeding groups receive their normal results. -/
theorem claim_C2_failure_isolation (env : FontEnv)
    (entries : List (String × TextToSvgPathOptions))
    (hnd : (entries.map Prod.fst).Nodup) :
    (∀ l o e, (l, o) ∈ entries → resolveFont env o.fontUrl = Except.error e →
      jsGet (processMulti env entries) l = some (errorResult e)) ∧
    (∀ e, (errorResult e).pathData = "" ∧ (errorResult e).pathElement = "" ∧
      (errorResult e).svg = "<svg><text>Error: " ++ e ++ "</text></svg>" ∧
      (errorResult e).svgWithBackground = none) ∧
    List.Perm ((processMulti env entries).map Prod.fst) (entries.map Prod.fst) ∧
    (∀ l o font r, (l, o) ∈ entries →
      resolveFont env o.fontUrl = Except.ok font →
      (∀ p, p ∈ entries → p.2.fontUrl = o.fontUrl →
        ∃ r2, processTextWithFont p.2 font = Except.ok r2) →
      processTextWithFont o font = Except.ok r →
      jsGet (processMulti env entries) l = some r) := by
  refine ⟨?_, fun e => ⟨rfl, rfl, rfl, rfl⟩, processMulti_labels_perm env entries, ?_⟩
  · intro l o e hmem herr
    rcases mem_fontGroups_of_mem_entries hmem with ⟨g, hg, hging⟩
    have hpg := processGroup_resolve_error g herr
    have hmem2 : (l, errorResult e) ∈ processGroup env o.fontUrl g := by
      rw [hpg]
      exact List.mem_map.2 ⟨(l, o), hging, rfl⟩
    have hmem3 : (l, errorResult e) ∈ processMulti env entries := by
      rw [processMulti]
      exact (mem_concatMap _ _ _).2 ⟨(o.fontUrl, g), hg, hmem2⟩
    exact jsGet_eq_of_mem (processMulti_keys_nodup env entries hnd) hmem3
  · intro l o font r hmem hres hall hpo
    rcases mem_fontGroups_of_mem_entries hmem with ⟨g, hg, hging⟩
    have hsub : ∀ p, p ∈ g → p ∈ entries := fun p hp =>
      (fontGroups_flat entries).mem_iff.1
        ((mem_concatMap _ _ _).2 ⟨(o.fontUrl, g), hg, hp⟩)
    have hurl : ∀ p, p ∈ g → p.2.fontUrl = o.fontUrl := fun p hp =>
      fontGroups_url_inv entries (o.fontUrl, g) hg p hp
    rcases generateGroup_total font g (fun p hp => hall p (hsub p hp) (hurl p hp)) with
      ⟨rs, hrs⟩
    have hpg := processGroup_ok g hres hrs
    rcases generateGroup_mem font g rs l o hrs hging with ⟨r2, hr2, hmem2⟩
    have hr2r : r2 = r := by
      have h5 := hpo.symm.trans hr2
      exact (by simpa using h5 : r = r2).symm
    have hmem3 : (l, r) ∈ processMulti env entries := by
      rw [processMulti]
      refine (mem_concatMap _ _ _).2 ⟨(o.fontUrl, g), hg, ?_⟩
      rw [hpg]
      exact hr2r ▸ hmem2
    exact jsGet_eq_of_mem (processMulti_keys_nodup env entries hnd) hmem3

/-- Witness for C2: a batch with one good and one 404 URL — the bad
label gets the degraded result, the good label its normal result. -/
theorem claim_C2_failure_isolation_witness :
    jsGet (processMulti sampleEnv [("k1", reqA), ("k2", reqBad)]) "k2" =
      some (errorResult (fetchFailMsg notFoundResp)) ∧
    jsGet (processMulti sampleEnv [("k1", reqA), ("k2", reqBad)]) "k1" =
      some (buildResult reqA sampleGeom) := by
  have h := claim_C2_failure_isolation sampleEnv [("k1", reqA), ("k2", reqBad)] (by decide)
  refine ⟨h.1 "k2" reqBad (fetchFailMsg notFoundResp) (by decide) rfl, ?_⟩
  refine h.2.2.2 "k1" reqA sampleFont (buildResult reqA sampleGeom) (by decide) rfl ?_ rfl
  intro p hp hurl
  rcases List.mem_cons.1 hp with hc | hc
  · rw [hc]
    exact ⟨buildResult reqA sampleGeom, rfl⟩
  · have hc2 : p = ("k2", reqBad) := by simpa using hc
    rw [hc2] at hurl
    exact absurd hurl (by decide)

/-- C9: in batch mode the whole resolve-and-generate sequence of a font
group sits in one try block, so when generation throws for any label the
catch overwrites every label of the group — including one whose
successful result was already stored — with the degraded error result. -/
theorem claim_C9_group_error_overwrites (env : FontEnv)
    (entries : List (String × TextToSvgPathOptions)) (url : String)
    (g : List (String × TextToSvgPathOptions)) (l : String)
    (o : TextToSvgPathOptions) (font : Font) (r : TextToSvgPathResult) (e : String)
    (hnd : (entries.map Prod.fst).Nodup)
    (hg : (url, g) ∈ fontGroups entries)
    (hlg : (l, o) ∈ g)
    (hres : resolveFont env url = Except.ok font)
    (_hok : processTextWithFont o font = Except.ok r)
    (hgen : generateGroup font g = Except.error e) :
    jsGet (processMulti env entries) l = some (errorResult e) := by
  have hpg := processGroup_gen_error g hres hgen
  have hmem2 : (l, errorResult e) ∈ processGroup env url g := by
    rw [hpg]
    exact List.mem_map.2 ⟨(l, o), hlg, rfl⟩
  have hmem3 : (l, errorResult e) ∈ processMulti env entries := by
    rw [processMulti]
    exact (mem_concatMap _ _ _).2 ⟨(url, g), hg, hmem2⟩
  exact jsGet_eq_of_mem (processMulti_keys_nodup env entries hnd) hmem3

/-- Witness for C9: the first label's generation succeeds, the second
throws, and the first label still ends up with the error result. -/
theorem claim_C9_group_error_overwrites_witness :
    processTextWithFont reqFine failGlyphFont =
      Except.ok (buildResult reqFine sampleGeom) ∧
    jsGet (processMulti failGlyphEnv [("first", reqFine), ("second", reqBoom)]) "first" =
      some (errorResult "broken glyph") :=
  ⟨rfl, claim_C9_group_error_overwrites failGlyphEnv
    [("first", reqFine), ("second", reqBoom)] goodUrl
    [("first", reqFine), ("second", reqBoom)] "first" reqFine failGlyphFont
    (buildResult reqFine sampleGeom) "broken glyph" (by decide) (by decide) (by decide)
    rfl rfl rfl⟩

end TextToSvgPath
